import Mathlib

/-!
Shallow embedding of `src/main.cpp` (e-chess: a 3x3 switch-matrix scanner
driving a 9-pixel NeoPixel strip).

The source is a single Arduino sketch with globals `FIELD_SIZE = 3`,
`COLS = {5,6,7}`, `ROWS = {2,3,4}`, a 3x3 `field` of `uint8_t`, a
`printField` routine, `setup`, and `loop`.  Pure state (the `field` array,
the strip's pixel buffer, and the logic level of the three column output
pins) is modelled as `MachState`; every hardware side effect is recorded in
a list of `Event`s.  The result of `digitalRead` on each row pin during each
column's excitation step is an input, a function `Readings`.  All machine
integers stay far below their overflow bounds (values are 0/1 cell states,
pixel indices below 9, color components at most 100), so `Nat` models them
exactly.
-/

/-- `const uint8_t FIELD_SIZE = 3` (reducible so `Fin FIELD_SIZE` literals work). -/
abbrev FIELD_SIZE : Nat := 3

/-- `#define LED_COUNT 9`. -/
abbrev LED_COUNT : Nat := 9

/-- `#define LED_PIN 8`. -/
abbrev LED_PIN : Nat := 8

/-- `const uint8_t COLS[FIELD_SIZE] = { 5, 6, 7 };` -/
def COLS (c : Fin FIELD_SIZE) : Nat := [5, 6, 7].getD c.val 0

/-- `const uint8_t ROWS[FIELD_SIZE] = { 2, 3, 4 };` -/
def ROWS (r : Fin FIELD_SIZE) : Nat := [2, 3, 4].getD r.val 0

/-- An RGB color triple as passed to `strip.setPixelColor(n, r, g, b)`. -/
structure Color where
  red : Nat
  green : Nat
  blue : Nat
deriving DecidableEq

/-- Arduino pin modes used by the sketch. -/
inductive PinMode where
  | inputPullup
  | output
deriving DecidableEq

/-- One observable hardware side effect of the sketch. -/
inductive Event where
  | serialBegin (baud : Nat)
  | stripBegin
  | setBrightness (b : Nat)
  | pinModeSet (pin : Nat) (mode : PinMode)
  | pinWrite (pin : Nat) (level : Bool)
  | pinRead (pin : Nat) (level : Bool)
  | setPixel (pixel : Nat) (red green blue : Nat)
  | stripShow
  | serialPrint (s : String)
  | serialPrintln (s : String)
  | delayMs (ms : Nat)
deriving DecidableEq

/-- Is the event a blocking `delay(ms)` call? -/
def Event.isDelay : Event → Bool
  | Event.delayMs _ => true
  | _ => false

/-- Is the event serial (diagnostic) output? -/
def Event.isSerial : Event → Bool
  | Event.serialPrint _ => true
  | Event.serialPrintln _ => true
  | _ => false

/-- The sketch's mutable state: the global `field` array, the strip's pixel
buffer (`strip.setPixelColor` ignores indices `>= LED_COUNT`, so the buffer
is a `Nat`-indexed map of which only `[0, LED_COUNT)` is ever written), and
the output level of the three column pins. -/
structure MachState where
  field : Fin FIELD_SIZE → Fin FIELD_SIZE → Nat
  pixels : Nat → Color
  colLevel : Fin FIELD_SIZE → Bool

/-- The environment: the level `digitalRead(ROWS[row])` returns while column
`col` is excited (driven low).  `reads col row = true` means the line reads
high (pull-up, contact open); `false` means low (contact closed). -/
abbrev Readings := Fin FIELD_SIZE → Fin FIELD_SIZE → Bool

/-- State before `setup` runs: the global initializer zeroes `field`; the
strip buffer starts cleared; column pins start low (unconfigured). -/
def initState : MachState :=
  { field := fun _ _ => 0
    pixels := fun _ => Color.mk 0 0 0
    colLevel := fun _ => false }

/-- `Adafruit_NeoPixel::setPixelColor(n, r, g, b)`: writes pixel `n` of the
buffer, ignoring out-of-range indices. -/
def setPixelColor (pixels : Nat → Color) (n : Nat) (c : Color) : Nat → Color :=
  if n < LED_COUNT then fun i => if i = n then c else pixels i else pixels

/-- The pixel-index computation in `loop` (lines 84-87):
`uint16_t pixel = row*FIELD_SIZE+col;`
`if (row % 2 == 0) { pixel = row*FIELD_SIZE+(FIELD_SIZE-col-1); }` -/
def pixelIndex (row col : Nat) : Nat :=
  let pixel := row * FIELD_SIZE + col
  if row % 2 = 0 then row * FIELD_SIZE + (FIELD_SIZE - col - 1) else pixel

/-- `printField`: for each row, print each cell and zero it, then print a
newline (lines 31-41 of the source). -/
def printField (st : MachState) : MachState × List Event :=
  (List.finRange FIELD_SIZE).foldl
    (fun acc row =>
      let inner :=
        (List.finRange FIELD_SIZE).foldl
          (fun acc2 col =>
            let v := acc2.1.field row col
            let field2 := fun r c =>
              if r = row ∧ c = col then 0 else acc2.1.field r c
            ({ acc2.1 with field := field2 },
              acc2.2 ++ [Event.serialPrint (toString v)]))
          acc
      (inner.1, inner.2 ++ [Event.serialPrintln ""]))
    (st, [])

/-- `setup`: serial init, strip init/show/brightness, pin configuration,
one `printField` call, then drive every column pin high. -/
def setup (st : MachState) : MachState × List Event :=
  let eInit := [Event.serialBegin 9600, Event.stripBegin, Event.stripShow,
    Event.setBrightness 255]
  let ePinRows :=
    (List.finRange FIELD_SIZE).map (fun r => Event.pinModeSet (ROWS r) PinMode.inputPullup)
  let ePinCols :=
    (List.finRange FIELD_SIZE).map (fun c => Event.pinModeSet (COLS c) PinMode.output)
  let printed := printField st
  let high :=
    (List.finRange FIELD_SIZE).foldl
      (fun acc col =>
        ({ acc.1 with colLevel := fun c => if c = col then true else acc.1.colLevel c },
          acc.2 ++ [Event.pinWrite (COLS col) true]))
      (printed.1, [])
  (high.1, eInit ++ ePinRows ++ ePinCols ++ printed.2 ++ high.2)

/-- The body of the inner `for (row ...)` loop in `loop` (lines 78-89):
`field[row][col] = !digitalRead(ROWS[row]);` then the pixel-index
computation, then `strip.setPixelColor(pixel, 100*field[row][col], 0, 0);`. -/
def scanCell (reads : Readings) (col row : Fin FIELD_SIZE) (st : MachState) :
    MachState × List Event :=
  let lvl := reads col row
  let v : Nat := if lvl then 0 else 1
  let field2 := fun r c => if r = row ∧ c = col then v else st.field r c
  let pixel := pixelIndex row.val col.val
  let pixels2 := setPixelColor st.pixels pixel (Color.mk (100 * v) 0 0)
  ({ st with field := field2, pixels := pixels2 },
    [Event.pinRead (ROWS row) lvl, Event.setPixel pixel (100 * v) 0 0])

/-- One iteration of the outer `for (col ...)` loop in `loop` (lines 75-91):
drive `COLS[col]` low, scan the three rows, drive `COLS[col]` high again. -/
def scanCol (reads : Readings) (col : Fin FIELD_SIZE) (st : MachState) :
    MachState × List Event :=
  let stLow := { st with colLevel := fun c => if c = col then false else st.colLevel c }
  let inner :=
    (List.finRange FIELD_SIZE).foldl
      (fun acc row =>
        let step := scanCell reads col row acc.1
        (step.1, acc.2 ++ step.2))
      (stLow, [])
  let stHigh :=
    { inner.1 with colLevel := fun c => if c = col then true else inner.1.colLevel c }
  (stHigh, [Event.pinWrite (COLS col) false] ++ inner.2 ++ [Event.pinWrite (COLS col) true])

/-- One full execution of `loop` (lines 73-94): scan all three columns, then
`strip.show()`. -/
def loopStep (reads : Readings) (st : MachState) : MachState × List Event :=
  let pass :=
    (List.finRange FIELD_SIZE).foldl
      (fun acc col =>
        let step := scanCol reads col acc.1
        (step.1, acc.2 ++ step.2))
      (st, [])
  (pass.1, pass.2 ++ [Event.stripShow])

/-- Effect of one event on the logic level of the column output pins
(only `digitalWrite` to a column pin changes them). -/
def colStep (s : Fin FIELD_SIZE → Bool) (e : Event) : Fin FIELD_SIZE → Bool :=
  match e with
  | Event.pinWrite p lvl => fun c => if COLS c = p then lvl else s c
  | _ => s

/-- Number of cells of a field holding 1 (a pressed contact). -/
def countTrueCells (f : Fin FIELD_SIZE → Fin FIELD_SIZE → Nat) : Nat :=
  ((List.finRange FIELD_SIZE).map
    (fun r => (List.finRange FIELD_SIZE).countP (fun c => f r c == 1))).sum

/-- Number of strip pixels that are not off/black. -/
def countLitPixels (p : Nat → Color) : Nat :=
  (List.range LED_COUNT).countP (fun n => !(p n == Color.mk 0 0 0))

/-! ### Helper lemmas (closed forms of one `loop` pass) -/

/-- After one `loop` pass, cell `(row, col)` of the field holds the inverted
read taken while column `col` was excited. -/
theorem loopStep_field (reads : Readings) (st : MachState) (r c : Fin FIELD_SIZE) :
    (loopStep reads st).1.field r c = (if reads c r then 0 else 1) := by
  fin_cases r <;> fin_cases c <;> rfl

/-- After one `loop` pass, the pixel at the serpentine index of `(r, c)` holds
`100 * field[r][c]` in the red channel and zero elsewhere. -/
theorem loopStep_pixel (reads : Readings) (st : MachState) (r c : Fin FIELD_SIZE) :
    (loopStep reads st).1.pixels (pixelIndex r.val c.val) =
      Color.mk (100 * (if reads c r then 0 else 1)) 0 0 := by
  fin_cases r <;> fin_cases c <;> rfl

/-- The field produced by one `loop` pass does not depend on the prior state. -/
theorem loopStep_field_indep (reads : Readings) (st st' : MachState) :
    (loopStep reads st).1.field = (loopStep reads st').1.field := by
  funext r c
  fin_cases r <;> fin_cases c <;> rfl

set_option maxHeartbeats 1600000 in
/-- Each of the 9 strip pixels produced by one `loop` pass does not depend on
the prior state (the serpentine mapping covers all of `[0, LED_COUNT)`). -/
theorem loopStep_pixels_indep (reads : Readings) (st st' : MachState) (n : Fin LED_COUNT) :
    (loopStep reads st).1.pixels n.val = (loopStep reads st').1.pixels n.val := by
  fin_cases n <;> rfl

/-- The event trace of one `loop` pass does not depend on the prior state. -/
theorem loopStep_events_indep (reads : Readings) (st st' : MachState) :
    (loopStep reads st).2 = (loopStep reads st').2 := rfl

/-- `countLitPixels` only looks at pixels `0 .. LED_COUNT - 1`. -/
theorem countLitPixels_congr (p q : Nat → Color) (h : ∀ n, n < LED_COUNT → p n = q n) :
    countLitPixels p = countLitPixels q := by
  unfold countLitPixels
  apply List.countP_congr
  intro n hn
  rw [h n (List.mem_range.mp hn)]

/-- The number of lit pixels after one `loop` pass does not depend on the
prior state. -/
theorem countLitPixels_loopStep_indep (reads : Readings) (st st' : MachState) :
    countLitPixels (loopStep reads st).1.pixels =
      countLitPixels (loopStep reads st').1.pixels :=
  countLitPixels_congr _ _ (fun n hn => loopStep_pixels_indep reads st st' ⟨n, hn⟩)

set_option maxHeartbeats 1600000 in
/-- Core of the single-press analysis, at the canonical start state: if the
readings are low exactly at `(c0, r0)`, the resulting field is 1 exactly at
`(r0, c0)`, exactly one cell is true, exactly one pixel is lit, and the lit
pixel is the one at `pixelIndex r0 c0`. -/
theorem singlePress_core : ∀ c0 r0 : Fin FIELD_SIZE,
    (∀ r c : Fin FIELD_SIZE,
      (loopStep (fun col row => !(decide (col = c0 ∧ row = r0))) initState).1.field r c =
        (if r = r0 ∧ c = c0 then 1 else 0)) ∧
    countTrueCells
      (loopStep (fun col row => !(decide (col = c0 ∧ row = r0))) initState).1.field = 1 ∧
    countLitPixels
      (loopStep (fun col row => !(decide (col = c0 ∧ row = r0))) initState).1.pixels = 1 ∧
    (∀ n : Fin LED_COUNT,
      (loopStep (fun col row => !(decide (col = c0 ∧ row = r0))) initState).1.pixels n.val =
        (if n.val = pixelIndex r0.val c0.val then Color.mk 100 0 0 else Color.mk 0 0 0)) := by
  decide


/-! ### Claim theorems -/

/-- C1 counterexample: the claim states that even rows map left-to-right, so
`(row, col) = (0, 0)` would map to index `0*3+0 = 0`; the code maps it to 2
(even rows are the reversed ones in `loop`). -/
theorem eChess_C1_counterexample :
    pixelIndex 0 0 = 2 ∧ ¬ (pixelIndex 0 0 = 0 * FIELD_SIZE + 0) := by decide

/-- C1 (amended): for every in-range coordinate of the 3x3 grid, the
serpentine mapping reverses the even rows: if row is even (0-indexed),
index = row*width + (width - col - 1) (right-to-left), and if row is odd,
index = row*width + col (left-to-right); with width = 3: row 0 maps
col 0,1,2 to 2,1,0; row 1 maps col 0,1,2 to 3,4,5; row 2 maps col 0,1,2 to
8,7,6. -/
theorem eChess_C1_serpentine :
    (∀ r c : Fin FIELD_SIZE,
      (r.val % 2 = 0 →
        pixelIndex r.val c.val = r.val * FIELD_SIZE + (FIELD_SIZE - c.val - 1)) ∧
      (r.val % 2 = 1 → pixelIndex r.val c.val = r.val * FIELD_SIZE + c.val)) ∧
    pixelIndex 0 0 = 2 ∧ pixelIndex 0 1 = 1 ∧ pixelIndex 0 2 = 0 ∧
    pixelIndex 1 0 = 3 ∧ pixelIndex 1 1 = 4 ∧ pixelIndex 1 2 = 5 ∧
    pixelIndex 2 0 = 8 ∧ pixelIndex 2 1 = 7 ∧ pixelIndex 2 2 = 6 := by
  decide

/-- Witness for C1 (amended): instantiated at rows 0 (even) and 1 (odd). -/
theorem eChess_C1_serpentine_witness :
    pixelIndex 0 1 = 0 * FIELD_SIZE + (FIELD_SIZE - 1 - 1) ∧
    pixelIndex 1 2 = 1 * FIELD_SIZE + 2 :=
  ⟨(eChess_C1_serpentine.1 0 1).1 (by decide),
   (eChess_C1_serpentine.1 1 2).2 (by decide)⟩

/-- C2: the serpentine pixel-index mapping, restricted to the 3x3 grid, is a
bijection onto `[0, width*height) = [0, 9)`: every index is below 9, distinct
coordinates map to distinct indices, and every index below 9 is hit. -/
theorem eChess_C2_bijection :
    (∀ r c : Fin FIELD_SIZE, pixelIndex r.val c.val < FIELD_SIZE * FIELD_SIZE) ∧
    (∀ r c r' c' : Fin FIELD_SIZE,
      pixelIndex r.val c.val = pixelIndex r'.val c'.val → r = r' ∧ c = c') ∧
    (∀ n : Fin (FIELD_SIZE * FIELD_SIZE),
      ∃ r c : Fin FIELD_SIZE, pixelIndex r.val c.val = n.val) := by
  decide

/-- Witness for C2: range and injectivity instantiated at `(1, 2)`. -/
theorem eChess_C2_bijection_witness :
    pixelIndex 1 2 < FIELD_SIZE * FIELD_SIZE ∧
    ((1 : Fin FIELD_SIZE) = 1 ∧ (2 : Fin FIELD_SIZE) = 2) :=
  ⟨eChess_C2_bijection.1 1 2, eChess_C2_bijection.2.1 1 2 1 2 rfl⟩

/-- C3: sense lines are read with inverted polarity: for every excitation
step `col` and row `row`, the recorded value `field[row][col]` is the
negation of the raw read (`!digitalRead`), so a low read is recorded as 1
and a high read as 0. -/
theorem eChess_C3_inverted_polarity (reads : Readings) (st : MachState)
    (col row : Fin FIELD_SIZE) :
    (loopStep reads st).1.field row col = (!(reads col row)).toNat ∧
    (loopStep reads st).1.field row col = (if reads col row then 0 else 1) := by
  have h := loopStep_field reads st row col
  refine ⟨?_, h⟩
  rw [h]
  cases reads col row <;> rfl

/-- C4: rendering is pointwise: a true cell maps to the fixed red color
`(100, 0, 0)` (red nonzero and constant, green and blue zero) and a false
cell to off `(0, 0, 0)`; and when every sense read is inactive (line high,
logical false), the field is all-zero and every one of the 9 pixels is
off/black. -/
theorem eChess_C4_render (reads : Readings) (st : MachState) :
    (∀ r c : Fin FIELD_SIZE,
      (loopStep reads st).1.pixels (pixelIndex r.val c.val) =
        (if (loopStep reads st).1.field r c = 1
          then Color.mk 100 0 0 else Color.mk 0 0 0)) ∧
    ((∀ col row, reads col row = true) →
      (∀ r c : Fin FIELD_SIZE, (loopStep reads st).1.field r c = 0) ∧
      (∀ n : Fin LED_COUNT, (loopStep reads st).1.pixels n.val = Color.mk 0 0 0)) := by
  constructor
  · intro r c
    rw [loopStep_pixel reads st r c, loopStep_field reads st r c]
    cases reads c r <;> rfl
  · intro h
    have hr : reads = fun _ _ => true := funext fun col => funext fun row => h col row
    subst hr
    refine ⟨fun r c => ?_, fun n => ?_⟩
    · rw [loopStep_field_indep _ st initState]
      fin_cases r <;> fin_cases c <;> rfl
    · rw [loopStep_pixels_indep _ st initState n]
      fin_cases n <;> rfl

/-- Witness for C4: the all-inactive hypothesis discharged at the concrete
all-high readings and the canonical start state. -/
theorem eChess_C4_render_witness :
    (loopStep (fun _ _ => true) initState).1.field 0 0 = 0 ∧
    (loopStep (fun _ _ => true) initState).1.pixels 0 = Color.mk 0 0 0 :=
  ⟨((eChess_C4_render (fun _ _ => true) initState).2 (fun _ _ => rfl)).1 0 0,
   ((eChess_C4_render (fun _ _ => true) initState).2 (fun _ _ => rfl)).2 0⟩

/-- C5: if exactly one sense line reads active (low) during exactly one
excitation step, namely row `r0` while column `c0` is excited, then after
the cycle the field is 1 exactly at `(r0, c0)`, exactly one cell is true,
exactly one of the 9 pixels is lit, and the lit pixel is the one at the
serpentine index `pixelIndex r0 c0`, colored `(100, 0, 0)`. -/
theorem eChess_C5_single_press (st : MachState) (c0 r0 : Fin FIELD_SIZE)
    (reads : Readings)
    (h : ∀ col row, reads col row = false ↔ (col = c0 ∧ row = r0)) :
    (∀ r c : Fin FIELD_SIZE,
      (loopStep reads st).1.field r c = (if r = r0 ∧ c = c0 then 1 else 0)) ∧
    countTrueCells (loopStep reads st).1.field = 1 ∧
    countLitPixels (loopStep reads st).1.pixels = 1 ∧
    (∀ n : Fin LED_COUNT,
      (loopStep reads st).1.pixels n.val =
        (if n.val = pixelIndex r0.val c0.val
          then Color.mk 100 0 0 else Color.mk 0 0 0)) := by
  have hr : reads = fun col row => !(decide (col = c0 ∧ row = r0)) := by
    funext col row
    by_cases hcr : col = c0 ∧ row = r0
    · rw [(h col row).2 hcr]
      simp [hcr.1, hcr.2]
    · have hx : reads col row = true := by
        cases hx : reads col row
        · exact absurd ((h col row).1 hx) hcr
        · rfl
      simp [hx, hcr]
  subst hr
  obtain ⟨h1, h2, h3, h4⟩ := singlePress_core c0 r0
  refine ⟨fun r c => ?_, ?_, ?_, fun n => ?_⟩
  · rw [loopStep_field_indep _ st initState]
    exact h1 r c
  · rw [loopStep_field_indep _ st initState]
    exact h2
  · rw [countLitPixels_loopStep_indep _ st initState]
    exact h3
  · rw [loopStep_pixels_indep _ st initState n]
    exact h4 n

/-- Witness for C5: a single press at column 1, row 2 yields exactly one
true cell. -/
theorem eChess_C5_single_press_witness :
    countTrueCells
      (loopStep
        (fun col row => !(decide (col = (1 : Fin FIELD_SIZE) ∧ row = (2 : Fin FIELD_SIZE))))
        initState).1.field = 1 :=
  (eChess_C5_single_press initState 1 2
    (fun col row => !(decide (col = (1 : Fin FIELD_SIZE) ∧ row = (2 : Fin FIELD_SIZE))))
    (by decide)).2.1

/-- C6: a scan-and-render cycle is a deterministic function of the current
readings alone: two runs from any two prior states produce identical field,
identical 9-pixel buffer, and identical event trace; in particular running
the cycle twice with unchanged readings produces identical output both
times. -/
theorem eChess_C6_deterministic (reads : Readings) (st st' : MachState) :
    (loopStep reads st).1.field = (loopStep reads st').1.field ∧
    (∀ n : Fin LED_COUNT,
      (loopStep reads st).1.pixels n.val = (loopStep reads st').1.pixels n.val) ∧
    (loopStep reads st).2 = (loopStep reads st').2 ∧
    (loopStep reads ((loopStep reads st).1)).1.field = (loopStep reads st).1.field ∧
    (∀ n : Fin LED_COUNT,
      (loopStep reads ((loopStep reads st).1)).1.pixels n.val =
        (loopStep reads st).1.pixels n.val) ∧
    (loopStep reads ((loopStep reads st).1)).2 = (loopStep reads st).2 :=
  ⟨loopStep_field_indep reads st st',
   fun n => loopStep_pixels_indep reads st st' n,
   loopStep_events_indep reads st st',
   loopStep_field_indep reads _ st,
   fun n => loopStep_pixels_indep reads _ st n,
   loopStep_events_indep reads _ st⟩

/-- C7 counterexample: one full `loop` cycle at a concrete input: its event
trace contains no delay at all, and its final event is the strip push,
refuting the claim that a fixed blocking delay follows the push. -/
theorem eChess_C7_counterexample :
    ((loopStep (fun _ _ => true) initState).2.all (fun e => !e.isDelay)) = true ∧
    (loopStep (fun _ _ => true) initState).2.getLastD (Event.delayMs 0) =
      Event.stripShow :=
  ⟨rfl, rfl⟩

/-- C7 (amended): each iteration of the control loop ends with the push to
outputs (`strip.show`) as its final step; there is no delay call anywhere in
the cycle: the step sequence is scan of all excitation lines, then push,
then repeat immediately, with exactly one push per cycle. -/
theorem eChess_C7_no_delay (reads : Readings) (st : MachState) :
    ((loopStep reads st).2.all (fun e => !e.isDelay)) = true ∧
    (loopStep reads st).2.getLastD (Event.delayMs 0) = Event.stripShow ∧
    (loopStep reads st).2.count Event.stripShow = 1 :=
  ⟨rfl, rfl, rfl⟩

/-- C8 counterexample: one full `loop` cycle at a concrete input produces no
serial output at all, refuting the claim that every control-loop cycle
prints a grid dump. -/
theorem eChess_C8_counterexample :
    ((loopStep (fun _ _ => true) initState).2.all (fun e => !e.isSerial)) = true :=
  rfl

/-- C8 (amended): serial diagnostic output is produced once, during `setup`
(whose single `printField` call prints a grid dump of 0/1 digits, one line
per row of the all-zero initial field); the control loop itself produces no
serial output on any cycle. -/
theorem eChess_C8_serial_only_in_setup (reads : Readings) (st : MachState) :
    ((setup initState).2.filter (fun e => e.isSerial) =
      [Event.serialPrint "0", Event.serialPrint "0", Event.serialPrint "0",
       Event.serialPrintln "",
       Event.serialPrint "0", Event.serialPrint "0", Event.serialPrint "0",
       Event.serialPrintln "",
       Event.serialPrint "0", Event.serialPrint "0", Event.serialPrint "0",
       Event.serialPrintln ""]) ∧
    ((loopStep reads st).2.all (fun e => !e.isSerial)) = true :=
  ⟨by decide, rfl⟩

/-- C9: `printField` clears the field to zero as a side effect of printing
it: for every starting state, after it returns every cell is 0, and the
printed sequence is exactly the pre-clear cell values, row by row, each row
followed by a newline. -/
theorem eChess_C9_printField (st : MachState) :
    (∀ r c : Fin FIELD_SIZE, (printField st).1.field r c = 0) ∧
    (printField st).2 =
      [Event.serialPrint (toString (st.field 0 0)),
       Event.serialPrint (toString (st.field 0 1)),
       Event.serialPrint (toString (st.field 0 2)), Event.serialPrintln "",
       Event.serialPrint (toString (st.field 1 0)),
       Event.serialPrint (toString (st.field 1 1)),
       Event.serialPrint (toString (st.field 1 2)), Event.serialPrintln "",
       Event.serialPrint (toString (st.field 2 0)),
       Event.serialPrint (toString (st.field 2 1)),
       Event.serialPrint (toString (st.field 2 2)), Event.serialPrintln ""] :=
  ⟨fun r c => by fin_cases r <;> fin_cases c <;> rfl, rfl⟩

/-- C10: at every point during a scan cycle, at most one column excitation
line is low: starting from the column levels established at the end of
`setup` (all high), every intermediate column-pin state reached along the
cycle's event trace has at most one low column, the end-of-setup state
itself is all high, and at the end of the cycle all columns are high again
(both in the machine state and replayed over the trace). -/
theorem eChess_C10_column_invariant (reads : Readings) (st : MachState) :
    (((loopStep reads st).2.scanl colStep ((setup initState).1.colLevel)).all
      (fun s => decide ((List.finRange FIELD_SIZE).countP (fun c => !(s c)) ≤ 1))
        = true) ∧
    (∀ c : Fin FIELD_SIZE, (setup initState).1.colLevel c = true) ∧
    (∀ c : Fin FIELD_SIZE, (loopStep reads st).1.colLevel c = true) ∧
    (∀ c : Fin FIELD_SIZE,
      ((loopStep reads st).2.foldl colStep ((setup initState).1.colLevel)) c = true) := by
  refine ⟨rfl, fun c => ?_, fun c => ?_, fun c => ?_⟩
  · fin_cases c <;> rfl
  · fin_cases c <;> rfl
  · fin_cases c <;> rfl
